import Mathlib

/-!
Shallow embedding of `tuba/log/log.py`, a JSON-format logging module.

The Python module emits one JSON object per line (keys `level`, `event_time`,
`msg`, optional `trace_id` and `stacktrace`) to a console sink and optional
rotating file sinks, with level thresholds, per-level exact filters, an
ambient context-variable trace id, and a lazily created singleton logger.

Machine-level conventions of the embedding:
* Python log levels are the numeric constants of the `logging` module
  (`DEBUG = 10`, ..., `CRITICAL = 50`), modelled as `Nat`.
* `time.time()` is an external input; every operation that stamps a record
  takes the current integer second `t : Nat` as an explicit argument.
* The process state visible to the module (the `_trace_id_var` context
  variable and the `_logger` global) is threaded explicitly as `LogState`.
* Emission is modelled as a list of `Event`s: a `write` of a formatted line
  to a destination, or a process `exit` with a status code.
* Python exceptions that escape to the caller are modelled with `Except`;
  operations that cannot raise return plain values.
-/

namespace Tuba

/-- Model of a Python value passed as a logging argument: an int or a str.
`str()` is total on these, mirroring that message stringification in the
module never fails for the values the tests exercise. -/
inductive PyVal
  | int (i : Int)
  | str (s : String)
deriving DecidableEq, Repr

/-- Python `str()` on the modelled values. -/
def pyStr : PyVal → String
  | PyVal.int i => i.repr
  | PyVal.str s => s

/-- A Python exception escaping to the caller. -/
inductive PyErr
  | typeError (msg : String)
  | valueError (msg : String)
deriving DecidableEq, Repr

/-- One `%` conversion of Python printf-style interpolation, restricted to
the `%d` and `%s` specifiers (the ones the repository uses). `%d` on a
non-number raises `TypeError`, as in Python; an unknown specifier raises
`ValueError`. -/
def pyFormatChar (c : Char) (v : PyVal) : Except PyErr String :=
  if c = 'd' then
    match v with
    | PyVal.int i => Except.ok i.repr
    | PyVal.str _ => Except.error (PyErr.typeError "%d format: a real number is required, not str")
  else if c = 's' then Except.ok (pyStr v)
  else Except.error (PyErr.valueError "unsupported format character")

/-- Python `msg % args` on a list of characters: `%%` is a literal percent,
each other `%` conversion consumes one argument; leftover or missing
arguments raise `TypeError`, a trailing lone `%` raises `ValueError`. -/
def pyInterpChars : List Char → List PyVal → Except PyErr String
  | [], [] => Except.ok ""
  | [], _ :: _ => Except.error (PyErr.typeError "not all arguments converted during string formatting")
  | ['%'], _ => Except.error (PyErr.valueError "incomplete format")
  | '%' :: '%' :: rest, vs =>
      match pyInterpChars rest vs with
      | Except.ok s => Except.ok ("%" ++ s)
      | Except.error e => Except.error e
  | '%' :: _ :: _, [] => Except.error (PyErr.typeError "not enough arguments for format string")
  | '%' :: c :: rest, v :: vs =>
      match pyFormatChar c v with
      | Except.error e => Except.error e
      | Except.ok s =>
          match pyInterpChars rest vs with
          | Except.ok s2 => Except.ok (s ++ s2)
          | Except.error e => Except.error e
  | c :: rest, vs =>
      match pyInterpChars rest vs with
      | Except.ok s => Except.ok (String.singleton c ++ s)
      | Except.error e => Except.error e

/-- Python `msg % args` (with `args` the tuple of extra arguments). -/
def pyInterp (msg : String) (args : List PyVal) : Except PyErr String :=
  pyInterpChars msg.data args

/-- The message of a `*f` variant: `msg % args if args else msg`. -/
def renderFormatted (msg : String) (args : List PyVal) : Except PyErr String :=
  match args with
  | [] => Except.ok msg
  | _ :: _ => pyInterp msg args

/-- The message of a plain variant: `" ".join(str(arg) for arg in args)`. -/
def renderJoin (args : List PyVal) : String :=
  String.intercalate " " (args.map pyStr)

/-- `logging.DEBUG` -/
def DEBUG : Nat := 10
/-- `logging.INFO` -/
def INFO : Nat := 20
/-- `logging.WARNING` -/
def WARNING : Nat := 30
/-- `logging.ERROR` — the standard numeric level. -/
def ERROR_LEVEL : Nat := 40
/-- `logging.CRITICAL` -/
def CRITICAL : Nat := 50

/-- `logging.getLevelName` on the standard level registry (the module never
registers custom names), yielding `record.levelname`. -/
def levelName (lvl : Nat) : String :=
  if lvl = 50 then "CRITICAL"
  else if lvl = 40 then "ERROR"
  else if lvl = 30 then "WARNING"
  else if lvl = 20 then "INFO"
  else if lvl = 10 then "DEBUG"
  else if lvl = 0 then "NOTSET"
  else "Level " ++ Nat.repr lvl

/-- Python `str.lower()` restricted to ASCII letters (level names are ASCII). -/
def pyLower (s : String) : String :=
  String.mk (s.data.map (fun c => if 'A' ≤ c ∧ c ≤ 'Z' then Char.ofNat (c.toNat + 32) else c))

/-- `n`-th hex digit character, as produced by `json.dumps` escapes. -/
def hexDigitChar (n : Nat) : Char :=
  if n < 10 then Char.ofNat (48 + n) else Char.ofNat (87 + n)

/-- Four lowercase hex digits of `n`, as in a `\uXXXX` escape. -/
def hex4 (n : Nat) : List Char :=
  [hexDigitChar (n / 4096 % 16), hexDigitChar (n / 256 % 16),
   hexDigitChar (n / 16 % 16), hexDigitChar (n % 16)]

/-- The characters `json.dumps` (with `ensure_ascii=False`) writes for one
string character: `"`, `\`, and control characters are escaped, everything
else — including non-ASCII — is written literally. -/
def jsonEscapeCharL (c : Char) : List Char :=
  if c = '"' then ['\\', '"']
  else if c = '\\' then ['\\', '\\']
  else if c = '\n' then ['\\', 'n']
  else if c = '\r' then ['\\', 'r']
  else if c = '\t' then ['\\', 't']
  else if c = '\x08' then ['\\', 'b']
  else if c = '\x0c' then ['\\', 'f']
  else if c.toNat < 32 then '\\' :: 'u' :: hex4 c.toNat
  else [c]

/-- JSON string-body escaping, character by character. -/
def jsonEscapeL : List Char → List Char
  | [] => []
  | c :: cs => jsonEscapeCharL c ++ jsonEscapeL cs

/-- A JSON string literal: quote, escaped body, quote. -/
def jsonQuoteL (s : List Char) : List Char :=
  '"' :: (jsonEscapeL s ++ ['"'])

/-- Body of `json.dumps` on a string-valued dict with separators `(",", ":")`:
`"key":"value"` pairs joined by commas, in insertion order. -/
def dumpsEntriesL : List (String × String) → List Char
  | [] => []
  | [(k, v)] => jsonQuoteL k.data ++ ':' :: jsonQuoteL v.data
  | (k, v) :: kv :: rest =>
      jsonQuoteL k.data ++ ':' :: jsonQuoteL v.data ++ ',' :: dumpsEntriesL (kv :: rest)

/-- `json.dumps(entries, ensure_ascii=False, separators=(",", ":"))` for a
string-valued dict in insertion order. -/
def dumpsStrObj (entries : List (String × String)) : String :=
  String.mk ('\x7b' :: (dumpsEntriesL entries ++ ['\x7d']))

/-- The parts of a `logging.LogRecord` the formatter reads: the numeric
level, the rendered message, and the rendered exception text when
`exc_info` was attached (`none` when it was not). -/
structure LogRecord where
  levelno : Nat
  msg : String
  excInfo : Option String
deriving DecidableEq, Repr

/-- The dict built by `JSONFormatter.format`, in insertion order:
`level` (lowercased levelname), `event_time` (`str(int(time.time()))`),
`msg`, then `trace_id` if the context variable is set, then `stacktrace`
if the level is at least WARNING and `exc_info` is attached. -/
def formatEntries (t : Nat) (traceId : Option String) (r : LogRecord) : List (String × String) :=
  [("level", pyLower (levelName r.levelno)),
   ("event_time", Nat.repr t),
   ("msg", r.msg)]
  ++ (match traceId with
      | some tid => [("trace_id", tid)]
      | none => [])
  ++ (if WARNING ≤ r.levelno then
        match r.excInfo with
        | some tb => [("stacktrace", tb)]
        | none => []
      else [])

/-- `JSONFormatter.format`: the serialized JSON line. -/
def format (t : Nat) (traceId : Option String) (r : LogRecord) : String :=
  dumpsStrObj (formatEntries t traceId r)


/-- `Config` dataclass: log path (empty = no file sinks), app name, debug
mode, multi-file mode. -/
structure Config where
  log_path : String
  app_name : String
  debug : Bool
  multi_file : Bool
deriving DecidableEq, Repr

/-- A configured `logging.Handler` as the module observes it: its output
destination (`"stdout"` for the console `StreamHandler`, otherwise the file
path of a `TimedRotatingFileHandler`), its minimum level, and the level of
an attached `LevelFilter` when one was added. -/
structure Handler where
  dest : String
  level : Nat
  levelFilter : Option Nat
deriving DecidableEq, Repr

/-- The `tubalog` logger: its own threshold level and its handler list. -/
structure Logger where
  level : Nat
  handlers : List Handler
deriving DecidableEq, Repr

/-- `os.path.join` for the directory/file-name uses in this module. -/
def pyPathJoin (a b : String) : String :=
  if a = "" then b
  else if a.data.getLast? = some '/' then a ++ b
  else a ++ "/" ++ b

/-- `LevelFilter.filter`: accept only records of exactly the given level. -/
def LevelFilter_filter (filterLevel : Nat) (r : LogRecord) : Bool :=
  r.levelno == filterLevel

/-- `_add_level_file_handler`: a rotating file handler named
`{app_name}{suffix}` with minimum level `level` and a `LevelFilter(level)`. -/
def _add_level_file_handler (config : Config) (sfx : String) (level : Nat) : Handler :=
  ⟨pyPathJoin config.log_path (config.app_name ++ sfx), level, some level⟩

/-- `_create_logger`: threshold DEBUG when `config.debug` else INFO; a
console handler at the same level with no filter; then, when `log_path` is
set, either per-level file handlers (info/warn/error/fatal always, debug
only in debug mode), or a single `{app_name}.log` handler with no filter. -/
def _create_logger (config : Config) : Logger :=
  let lvl := if config.debug then DEBUG else INFO
  let console : Handler := ⟨"stdout", if config.debug then DEBUG else INFO, none⟩
  let fileHandlers : List Handler :=
    if config.log_path ≠ "" then
      if config.multi_file then
        [_add_level_file_handler config "_info.log" INFO,
         _add_level_file_handler config "_warn.log" WARNING,
         _add_level_file_handler config "_error.log" ERROR_LEVEL,
         _add_level_file_handler config "_fatal.log" CRITICAL] ++
        (if config.debug then [_add_level_file_handler config "_debug.log" DEBUG] else [])
      else
        [⟨pyPathJoin config.log_path (config.app_name ++ ".log"),
          if config.debug then DEBUG else INFO, none⟩]
    else []
  ⟨lvl, console :: fileHandlers⟩

/-- The module state: the `_trace_id_var` context variable (for the current
logical context) and the `_logger` global. -/
structure LogState where
  traceVar : Option String
  logger : Option Logger
deriving DecidableEq, Repr

/-- `_get_logger`: return the global logger, creating it from
`Config(debug=True)` on first use. -/
def _get_logger (st : LogState) : Logger × LogState :=
  match st.logger with
  | some lg => (lg, st)
  | none =>
      let lg := _create_logger ⟨"", "", true, false⟩
      (lg, ⟨st.traceVar, some lg⟩)

/-- `init`: replace the global logger with one built from `config`. -/
def init (config : Config) (st : LogState) : LogState :=
  ⟨st.traceVar, some (_create_logger config)⟩

/-- `with_trace_id`: set the context variable, returning the token (which
carries the previous value) and the new state. -/
def with_trace_id (traceId : String) (st : LogState) : Option String × LogState :=
  (st.traceVar, ⟨some traceId, st.logger⟩)

/-- `from_context`: the current trace id and whether one is set. -/
def from_context (st : LogState) : Option String × Bool :=
  (st.traceVar, st.traceVar.isSome)

/-- `reset_trace_id`: restore the value captured in the token. -/
def reset_trace_id (token : Option String) (st : LogState) : LogState :=
  ⟨token, st.logger⟩

/-- Whether `Logger.callHandlers` hands the record to a handler: the record
level must reach the handler's level and pass its `LevelFilter`, if any. -/
def handlerAccepts (h : Handler) (lvl : Nat) : Bool :=
  decide (h.level ≤ lvl) &&
    (match h.levelFilter with
     | none => true
     | some f => LevelFilter_filter f ⟨lvl, "", none⟩)

/-- The handlers that receive a record of level `lvl`: none when the level
is below the logger threshold (no record is even built), otherwise every
handler whose level/filter accept it. -/
def deliveredHandlers (lg : Logger) (lvl : Nat) : List Handler :=
  if lg.level ≤ lvl then lg.handlers.filter (fun h => handlerAccepts h lvl) else []

/-- An observable effect of a logging call. -/
inductive Event
  | write (dest : String) (line : String)
  | exit (code : Nat)
deriving DecidableEq, Repr

/-- One `logger.<level>(msg)` call on a given logger: each qualifying
handler formats the record (with the ambient trace id) and writes the line. -/
def logWith (lg : Logger) (t : Nat) (lvl : Nat) (msg : String) (traceId : Option String) : List Event :=
  (deliveredHandlers lg lvl).map (fun h => Event.write h.dest (format t traceId ⟨lvl, msg, none⟩))

/-- Body shared by the plain variants (`debug`/`info`/`warn`/`error` and the
logging part of `fatal`): `_get_logger().<level>(" ".join(map(str, args)))`. -/
def logPlain (lvl t : Nat) (args : List PyVal) (st : LogState) : LogState × List Event :=
  let (lg, st1) := _get_logger st
  (st1, logWith lg t lvl (renderJoin args) st1.traceVar)

/-- Body shared by the formatted variants:
`_get_logger().<level>(msg % args if args else msg)`. `_get_logger()` is
evaluated first (Python evaluates the receiver before the argument), then a
failing interpolation raises to the caller before anything is logged. -/
def logFmt (lvl t : Nat) (msg : String) (args : List PyVal) (st : LogState) :
    Except PyErr Unit × LogState × List Event :=
  let (lg, st1) := _get_logger st
  match renderFormatted msg args with
  | Except.error e => (Except.error e, st1, [])
  | Except.ok m => (Except.ok (), st1, logWith lg t lvl m st1.traceVar)

/-- `debug(*args)` -/
def debug (t : Nat) (args : List PyVal) (st : LogState) : LogState × List Event :=
  logPlain DEBUG t args st

/-- `debugf(msg, *args)` -/
def debugf (t : Nat) (msg : String) (args : List PyVal) (st : LogState) :
    Except PyErr Unit × LogState × List Event :=
  logFmt DEBUG t msg args st

/-- `info(*args)` -/
def info (t : Nat) (args : List PyVal) (st : LogState) : LogState × List Event :=
  logPlain INFO t args st

/-- `infof(msg, *args)` -/
def infof (t : Nat) (msg : String) (args : List PyVal) (st : LogState) :
    Except PyErr Unit × LogState × List Event :=
  logFmt INFO t msg args st

/-- `warn(*args)` (calls `logger.warning`). -/
def warn (t : Nat) (args : List PyVal) (st : LogState) : LogState × List Event :=
  logPlain WARNING t args st

/-- `warnf(msg, *args)` -/
def warnf (t : Nat) (msg : String) (args : List PyVal) (st : LogState) :
    Except PyErr Unit × LogState × List Event :=
  logFmt WARNING t msg args st

/-- `error(*args)` -/
def error (t : Nat) (args : List PyVal) (st : LogState) : LogState × List Event :=
  logPlain ERROR_LEVEL t args st

/-- `errorf(msg, *args)` -/
def errorf (t : Nat) (msg : String) (args : List PyVal) (st : LogState) :
    Except PyErr Unit × LogState × List Event :=
  logFmt ERROR_LEVEL t msg args st

/-- `fatal(*args)`: log at CRITICAL, then `sys.exit(1)`. -/
def fatal (t : Nat) (args : List PyVal) (st : LogState) : LogState × List Event :=
  let (st1, evs) := logPlain CRITICAL t args st
  (st1, evs ++ [Event.exit 1])

/-- `fatalf(msg, *args)`: log at CRITICAL, then `sys.exit(1)`; a failing
interpolation raises before the exit is reached. -/
def fatalf (t : Nat) (msg : String) (args : List PyVal) (st : LogState) :
    Except PyErr Unit × LogState × List Event :=
  match logFmt CRITICAL t msg args st with
  | (Except.ok u, st1, evs) => (Except.ok u, st1, evs ++ [Event.exit 1])
  | r => r

/-- `ctx_debug`: install the trace id, log once, restore (try/finally). -/
def ctx_debug (t : Nat) (traceId : String) (args : List PyVal) (st : LogState) :
    LogState × List Event :=
  let (token, st1) := with_trace_id traceId st
  let (st2, evs) := debug t args st1
  (reset_trace_id token st2, evs)

/-- `ctx_debugf`: install the trace id, log once, restore even on failure. -/
def ctx_debugf (t : Nat) (traceId : String) (msg : String) (args : List PyVal) (st : LogState) :
    Except PyErr Unit × LogState × List Event :=
  let (token, st1) := with_trace_id traceId st
  let (r, st2, evs) := debugf t msg args st1
  (r, reset_trace_id token st2, evs)

/-- `ctx_info` -/
def ctx_info (t : Nat) (traceId : String) (args : List PyVal) (st : LogState) :
    LogState × List Event :=
  let (token, st1) := with_trace_id traceId st
  let (st2, evs) := info t args st1
  (reset_trace_id token st2, evs)

/-- `ctx_infof` -/
def ctx_infof (t : Nat) (traceId : String) (msg : String) (args : List PyVal) (st : LogState) :
    Except PyErr Unit × LogState × List Event :=
  let (token, st1) := with_trace_id traceId st
  let (r, st2, evs) := infof t msg args st1
  (r, reset_trace_id token st2, evs)

/-- `ctx_warn` -/
def ctx_warn (t : Nat) (traceId : String) (args : List PyVal) (st : LogState) :
    LogState × List Event :=
  let (token, st1) := with_trace_id traceId st
  let (st2, evs) := warn t args st1
  (reset_trace_id token st2, evs)

/-- `ctx_warnf` -/
def ctx_warnf (t : Nat) (traceId : String) (msg : String) (args : List PyVal) (st : LogState) :
    Except PyErr Unit × LogState × List Event :=
  let (token, st1) := with_trace_id traceId st
  let (r, st2, evs) := warnf t msg args st1
  (r, reset_trace_id token st2, evs)

/-- `ctx_error` -/
def ctx_error (t : Nat) (traceId : String) (args : List PyVal) (st : LogState) :
    LogState × List Event :=
  let (token, st1) := with_trace_id traceId st
  let (st2, evs) := error t args st1
  (reset_trace_id token st2, evs)

/-- `ctx_errorf` -/
def ctx_errorf (t : Nat) (traceId : String) (msg : String) (args : List PyVal) (st : LogState) :
    Except PyErr Unit × LogState × List Event :=
  let (token, st1) := with_trace_id traceId st
  let (r, st2, evs) := errorf t msg args st1
  (r, reset_trace_id token st2, evs)

/-- States whose logger slot is as the module can make it: never set, or
built by `_create_logger` from some configuration. -/
def ReachableLogger (st : LogState) : Prop :=
  st.logger = none ∨ ∃ config, st.logger = some (_create_logger config)

/-- A write event whose line is a serialized object without a `stacktrace`
key; exit events carry no record at all. -/
def eventNoStacktrace : Event → Prop
  | Event.write _ line => ∃ es, line = dumpsStrObj es ∧ "stacktrace" ∉ es.map Prod.fst
  | Event.exit _ => True



/-- Decoder side of the round-trip property (modelling `json.loads` on the
subset of JSON the formatter emits): the value of one escape character. -/
def unescapeChar (e : Char) : Option Char :=
  if e = '"' then some '"'
  else if e = '\\' then some '\\'
  else if e = '/' then some '/'
  else if e = 'n' then some '\n'
  else if e = 'r' then some '\r'
  else if e = 't' then some '\t'
  else if e = 'b' then some '\x08'
  else if e = 'f' then some '\x0c'
  else none

/-- Value of one lowercase hex digit. -/
def hexVal (c : Char) : Option Nat :=
  if '0' ≤ c ∧ c ≤ '9' then some (c.toNat - 48)
  else if 'a' ≤ c ∧ c ≤ 'f' then some (c.toNat - 87)
  else none

/-- Decode a JSON string body up to (and consuming) the closing quote,
returning the decoded characters and the remaining input. -/
def parseStrAux : List Char → Option (List Char × List Char)
  | [] => none
  | c :: rest =>
    if c = '"' then some ([], rest)
    else if c = '\\' then
      match rest with
      | [] => none
      | e :: rest2 =>
        if e = 'u' then
          match rest2 with
          | h1 :: h2 :: h3 :: h4 :: rest3 =>
            match hexVal h1, hexVal h2, hexVal h3, hexVal h4, parseStrAux rest3 with
            | some a, some b, some c2, some d, some (s, r) =>
                some (Char.ofNat (a * 4096 + b * 256 + c2 * 16 + d) :: s, r)
            | _, _, _, _, _ => none
          | _ => none
        else
          match unescapeChar e, parseStrAux rest2 with
          | some c2, some (s, r) => some (c2 :: s, r)
          | _, _ => none
    else
      match parseStrAux rest with
      | some (s, r) => some (c :: s, r)
      | none => none

/-- Decode a JSON string literal (opening quote included). -/
def parseJStr (l : List Char) : Option (List Char × List Char) :=
  match l with
  | [] => none
  | c :: rest => if c = '"' then parseStrAux rest else none

/-- Decode one `"key":"value"` pair. -/
def parseKV (l : List Char) : Option ((String × String) × List Char) :=
  match parseJStr l with
  | none => none
  | some (k, r1) =>
    match r1 with
    | [] => none
    | c :: r2 =>
      if c = ':' then
        match parseJStr r2 with
        | none => none
        | some (v, r3) => some ((String.mk k, String.mk v), r3)
      else none

/-- Decode a nonempty comma-separated pair list up to (and consuming) the
closing brace; `fuel` bounds the number of pairs. -/
def parseEntriesAux : Nat → List Char → Option (List (String × String) × List Char)
  | 0, _ => none
  | Nat.succ fuel, l =>
    match parseKV l with
    | none => none
    | some (kv, r) =>
      match r with
      | [] => none
      | c :: r2 =>
        if c = ',' then
          match parseEntriesAux fuel r2 with
          | none => none
          | some (es, r3) => some (kv :: es, r3)
        else if c = '\x7d' then some ([kv], r2)
        else none

/-- Decode a whole line as a string-valued JSON object. -/
def parseStrObj (s : String) : Option (List (String × String)) :=
  match s.data with
  | c :: c2 :: l2 =>
    if c = '\x7b' then
      if c2 = '\x7d' then (if l2 = [] then some [] else none)
      else
        match parseEntriesAux s.length (c2 :: l2) with
        | some (es, r) => if r = [] then some es else none
        | _ => none
    else none
  | _ => none

/-- Decoding a hex digit character gives back its value. -/
theorem hexVal_hexDigitChar : ∀ k, k < 16 → hexVal (hexDigitChar k) = some k := by decide

/-- Decoding undoes escaping: the string body decoder consumes exactly the
escaped characters and the closing quote. -/
theorem parseStrAux_escape (s : List Char) :
    ∀ rest, parseStrAux (jsonEscapeL s ++ '"' :: rest) = some (s, rest) := by
  induction s with
  | nil =>
    intro rest
    show parseStrAux ('"' :: rest) = some ([], rest)
    rw [parseStrAux.eq_def]; dsimp only; rw [if_pos rfl]
  | cons c cs ih =>
    intro rest
    show parseStrAux ((jsonEscapeCharL c ++ jsonEscapeL cs) ++ '"' :: rest) = some (c :: cs, rest)
    rw [List.append_assoc]
    by_cases h1 : c = '"'
    · subst h1
      rw [show jsonEscapeCharL '"' = ['\\', '"'] from rfl]
      rw [List.cons_append, List.cons_append, List.nil_append]
      rw [parseStrAux.eq_def]; dsimp only
      simp [unescapeChar, ih]
    by_cases h2 : c = '\\'
    · subst h2
      rw [show jsonEscapeCharL '\\' = ['\\', '\\'] from rfl]
      rw [List.cons_append, List.cons_append, List.nil_append]
      rw [parseStrAux.eq_def]; dsimp only
      simp [unescapeChar, ih]
    by_cases h3 : c = '\n'
    · subst h3
      rw [show jsonEscapeCharL '\n' = ['\\', 'n'] from rfl]
      rw [List.cons_append, List.cons_append, List.nil_append]
      rw [parseStrAux.eq_def]; dsimp only
      simp [unescapeChar, ih]
    by_cases h4 : c = '\r'
    · subst h4
      rw [show jsonEscapeCharL '\r' = ['\\', 'r'] from rfl]
      rw [List.cons_append, List.cons_append, List.nil_append]
      rw [parseStrAux.eq_def]; dsimp only
      simp [unescapeChar, ih]
    by_cases h5 : c = '\t'
    · subst h5
      rw [show jsonEscapeCharL '\t' = ['\\', 't'] from rfl]
      rw [List.cons_append, List.cons_append, List.nil_append]
      rw [parseStrAux.eq_def]; dsimp only
      simp [unescapeChar, ih]
    by_cases h6 : c = '\x08'
    · subst h6
      rw [show jsonEscapeCharL '\x08' = ['\\', 'b'] from rfl]
      rw [List.cons_append, List.cons_append, List.nil_append]
      rw [parseStrAux.eq_def]; dsimp only
      simp [unescapeChar, ih]
    by_cases h7 : c = '\x0c'
    · subst h7
      rw [show jsonEscapeCharL '\x0c' = ['\\', 'f'] from rfl]
      rw [List.cons_append, List.cons_append, List.nil_append]
      rw [parseStrAux.eq_def]; dsimp only
      simp [unescapeChar, ih]
    by_cases h8 : c.toNat < 32
    · have e1 : jsonEscapeCharL c = '\\' :: 'u' :: hex4 c.toNat := by
        simp [jsonEscapeCharL, h1, h2, h3, h4, h5, h6, h7, h8]
      have d1 : hexVal (hexDigitChar (c.toNat / 4096 % 16)) = some (c.toNat / 4096 % 16) :=
        hexVal_hexDigitChar _ (Nat.mod_lt _ (by norm_num))
      have d2 : hexVal (hexDigitChar (c.toNat / 256 % 16)) = some (c.toNat / 256 % 16) :=
        hexVal_hexDigitChar _ (Nat.mod_lt _ (by norm_num))
      have d3 : hexVal (hexDigitChar (c.toNat / 16 % 16)) = some (c.toNat / 16 % 16) :=
        hexVal_hexDigitChar _ (Nat.mod_lt _ (by norm_num))
      have d4 : hexVal (hexDigitChar (c.toNat % 16)) = some (c.toNat % 16) :=
        hexVal_hexDigitChar _ (Nat.mod_lt _ (by norm_num))
      have hval : c.toNat / 4096 % 16 * 4096 + c.toNat / 256 % 16 * 256 +
          c.toNat / 16 % 16 * 16 + c.toNat % 16 = c.toNat := by omega
      rw [e1, hex4]
      rw [List.cons_append, List.cons_append, List.cons_append, List.cons_append,
        List.cons_append, List.cons_append, List.nil_append]
      rw [parseStrAux.eq_def]; dsimp only
      simp [d1, d2, d3, d4, ih, hval]
    · have e1 : jsonEscapeCharL c = [c] := by
        simp [jsonEscapeCharL, h1, h2, h3, h4, h5, h6, h7, h8]
      rw [e1, List.cons_append, List.nil_append]
      rw [parseStrAux.eq_def]; dsimp only
      rw [if_neg h1, if_neg h2]
      simp [ih]

/-- Decoding a serialized JSON string literal recovers the original. -/
theorem parseJStr_quote (s : String) (rest : List Char) :
    parseJStr (jsonQuoteL s.data ++ rest) = some (s.data, rest) := by
  show parseJStr ('"' :: (jsonEscapeL s.data ++ ['"']) ++ rest) = some (s.data, rest)
  rw [List.cons_append, List.append_assoc, List.singleton_append]
  rw [parseJStr.eq_def]; dsimp only
  rw [if_pos rfl]
  exact parseStrAux_escape s.data rest

/-- Decoding a serialized `"key":"value"` pair recovers the pair. -/
theorem parseKV_quote (k v : String) (rest : List Char) :
    parseKV (jsonQuoteL k.data ++ ':' :: jsonQuoteL v.data ++ rest) = some ((k, v), rest) := by
  have h1 := parseJStr_quote k (':' :: (jsonQuoteL v.data ++ rest))
  have h2 := parseJStr_quote v rest
  rw [parseKV.eq_def]
  rw [show (jsonQuoteL k.data ++ ':' :: jsonQuoteL v.data ++ rest : List Char)
      = jsonQuoteL k.data ++ (':' :: (jsonQuoteL v.data ++ rest)) by simp]
  rw [h1]
  dsimp only
  rw [if_pos rfl, h2]

/-- Decoding a serialized nonempty entry list consumes it up to the closing
brace, given enough fuel. -/
theorem parseEntriesAux_dumps :
    ∀ (entries : List (String × String)) (fuel : Nat) (rest : List Char),
      entries ≠ [] → entries.length ≤ fuel →
      parseEntriesAux fuel (dumpsEntriesL entries ++ '\x7d' :: rest) = some (entries, rest) := by
  intro entries
  induction entries with
  | nil => intro fuel rest h _; exact absurd rfl h
  | cons kv tl ih =>
    intro fuel rest _ hlen
    obtain ⟨k, v⟩ := kv
    cases fuel with
    | zero => simp at hlen
    | succ f =>
      cases tl with
      | nil =>
        have hKV := parseKV_quote k v ('\x7d' :: rest)
        rw [parseEntriesAux.eq_def]; dsimp only
        rw [show dumpsEntriesL [(k, v)] ++ '\x7d' :: rest
            = jsonQuoteL k.data ++ ':' :: jsonQuoteL v.data ++ '\x7d' :: rest by
          simp [dumpsEntriesL]]
        rw [hKV]; dsimp only
        rw [if_neg (by decide), if_pos rfl]
      | cons kv2 tl2 =>
        have hKV := parseKV_quote k v (',' :: (dumpsEntriesL (kv2 :: tl2) ++ '\x7d' :: rest))
        rw [parseEntriesAux.eq_def]; dsimp only
        rw [show dumpsEntriesL ((k, v) :: kv2 :: tl2) ++ '\x7d' :: rest
            = jsonQuoteL k.data ++ ':' :: jsonQuoteL v.data ++
              ',' :: (dumpsEntriesL (kv2 :: tl2) ++ '\x7d' :: rest) by
          simp [dumpsEntriesL]]
        rw [hKV]; dsimp only
        rw [if_pos rfl]
        rw [ih f rest (by simp) (by
          simp only [List.length_cons] at hlen ⊢
          omega)]

/-- Serialization writes at least one character per entry. -/
theorem le_length_dumpsEntriesL (entries : List (String × String)) :
    entries.length ≤ (dumpsEntriesL entries).length := by
  induction entries with
  | nil => simp [dumpsEntriesL]
  | cons kv tl ih =>
    obtain ⟨k, v⟩ := kv
    cases tl with
    | nil => simp [dumpsEntriesL, jsonQuoteL]
    | cons kv2 tl2 =>
      simp only [dumpsEntriesL, jsonQuoteL, List.length_append, List.length_cons] at ih ⊢
      omega

/-- Round trip: decoding a serialized string-valued JSON object recovers
exactly the entries that were serialized. -/
theorem parseStrObj_dumps (entries : List (String × String)) :
    parseStrObj (dumpsStrObj entries) = some entries := by
  cases entries with
  | nil => decide
  | cons kv tl =>
    obtain ⟨k, v⟩ := kv
    have hshape : ∃ tail, dumpsEntriesL ((k, v) :: tl) = '"' :: tail := by
      cases tl with
      | nil =>
        refine ⟨jsonEscapeL k.data ++ '"' :: ':' :: '"' :: (jsonEscapeL v.data ++ ['"']), ?_⟩
        simp [dumpsEntriesL, jsonQuoteL]
      | cons kv2 tl2 =>
        refine ⟨jsonEscapeL k.data ++
          '"' :: ':' :: '"' :: (jsonEscapeL v.data ++ '"' :: ',' :: dumpsEntriesL (kv2 :: tl2)), ?_⟩
        simp [dumpsEntriesL, jsonQuoteL]
    obtain ⟨tail, htail⟩ := hshape
    have hfuel : ((k, v) :: tl).length ≤ (dumpsStrObj ((k, v) :: tl)).length := by
      have h1 := le_length_dumpsEntriesL ((k, v) :: tl)
      simp only [dumpsStrObj, String.length, List.length_cons, List.length_append] at h1 ⊢
      omega
    have hdata : (dumpsStrObj ((k, v) :: tl)).data = '\x7b' :: '"' :: (tail ++ ['\x7d']) := by
      show '\x7b' :: (dumpsEntriesL ((k, v) :: tl) ++ ['\x7d']) = _
      rw [htail]; simp
    rw [parseStrObj.eq_def, hdata]
    dsimp only
    rw [if_pos rfl, if_neg (by decide)]
    rw [show ('"' :: (tail ++ ['\x7d']) : List Char)
        = dumpsEntriesL ((k, v) :: tl) ++ '\x7d' :: [] by rw [htail]; simp]
    rw [parseEntriesAux_dumps ((k, v) :: tl) _ [] (by simp) hfuel]
    dsimp only
    rw [if_pos rfl]

/-- Decimal digit characters are digits. -/
theorem digitChar_isDigit : ∀ m, m < 10 → (Nat.digitChar m).isDigit = true := by decide

/-- Every character `Nat.toDigitsCore` emits in base 10 is a digit. -/
theorem toDigitsCore_digits :
    ∀ (fuel n : Nat) (acc : List Char), (∀ c ∈ acc, c.isDigit = true) →
      ∀ c ∈ Nat.toDigitsCore 10 fuel n acc, c.isDigit = true := by
  intro fuel
  induction fuel with
  | zero =>
    intro n acc hacc
    rw [Nat.toDigitsCore.eq_def]
    exact hacc
  | succ f ih =>
    intro n acc hacc
    rw [Nat.toDigitsCore.eq_def]
    dsimp only
    have hd : ∀ c ∈ Nat.digitChar (n % 10) :: acc, c.isDigit = true := by
      intro c hc
      rcases List.mem_cons.mp hc with h1 | h1
      · subst h1; exact digitChar_isDigit _ (Nat.mod_lt _ (by norm_num))
      · exact hacc c h1
    by_cases h : n / 10 = 0
    · rw [if_pos h]; exact hd
    · rw [if_neg h]; exact ih (n / 10) _ hd

/-- `Nat.toDigitsCore` never empties a nonempty accumulator. -/
theorem toDigitsCore_ne_nil :
    ∀ (fuel n : Nat) (acc : List Char), acc ≠ [] → Nat.toDigitsCore 10 fuel n acc ≠ [] := by
  intro fuel
  induction fuel with
  | zero =>
    intro n acc hacc
    rw [Nat.toDigitsCore.eq_def]
    exact hacc
  | succ f ih =>
    intro n acc hacc
    rw [Nat.toDigitsCore.eq_def]
    dsimp only
    by_cases h : n / 10 = 0
    · rw [if_pos h]; exact List.cons_ne_nil _ _
    · rw [if_neg h]; exact ih (n / 10) _ (List.cons_ne_nil _ _)

/-- `str(int(t))` is a nonempty all-digit string. -/
theorem repr_digits (n : Nat) :
    (Nat.repr n).data ≠ [] ∧ ∀ c ∈ (Nat.repr n).data, c.isDigit = true := by
  have hdata : (Nat.repr n).data = Nat.toDigitsCore 10 (n + 1) n [] := rfl
  rw [hdata]
  constructor
  · rw [Nat.toDigitsCore.eq_def]
    dsimp only
    by_cases h : n / 10 = 0
    · rw [if_pos h]; exact List.cons_ne_nil _ _
    · rw [if_neg h]; exact toDigitsCore_ne_nil _ _ _ (List.cons_ne_nil _ _)
  · exact toDigitsCore_digits (n + 1) n [] (by intro c hc; cases hc)

/-- The exact key list of a formatted record: the three mandatory keys, then
`trace_id` iff a trace id is set, then `stacktrace` iff the level is at
least WARNING and an exception is attached. -/
theorem formatEntries_keys (t : Nat) (tid : Option String) (r : LogRecord) :
    (formatEntries t tid r).map Prod.fst
      = ["level", "event_time", "msg"]
        ++ (if tid.isSome then ["trace_id"] else [])
        ++ (if WARNING ≤ r.levelno ∧ r.excInfo.isSome then ["stacktrace"] else []) := by
  obtain ⟨lvl, m, exc⟩ := r
  cases tid <;> cases exc <;> by_cases h : WARNING ≤ lvl <;>
    simp [formatEntries, h]

/-- The `event_time` field holds `str(t)`. -/
theorem formatEntries_event_time (t : Nat) (tid : Option String) (r : LogRecord) :
    List.lookup "event_time" (formatEntries t tid r) = some (Nat.repr t) := rfl

/-- The `msg` field holds the rendered message. -/
theorem formatEntries_msg (t : Nat) (tid : Option String) (r : LogRecord) :
    List.lookup "msg" (formatEntries t tid r) = some r.msg := rfl

/-- The `level` field holds the lowercased Python level name. -/
theorem formatEntries_level (t : Nat) (tid : Option String) (r : LogRecord) :
    List.lookup "level" (formatEntries t tid r) = some (pyLower (levelName r.levelno)) := rfl

/-- Escaping one character never emits a newline. -/
theorem newline_not_mem_jsonEscapeCharL (c : Char) : '\n' ∉ jsonEscapeCharL c := by
  have hhex : ∀ k, k < 16 → hexDigitChar k ≠ '\n' := by decide
  by_cases h1 : c = '"'
  · subst h1; decide
  by_cases h2 : c = '\\'
  · subst h2; decide
  by_cases h3 : c = '\n'
  · subst h3; decide
  by_cases h4 : c = '\r'
  · subst h4; decide
  by_cases h5 : c = '\t'
  · subst h5; decide
  by_cases h6 : c = '\x08'
  · subst h6; decide
  by_cases h7 : c = '\x0c'
  · subst h7; decide
  by_cases h8 : c.toNat < 32
  · have e1 : jsonEscapeCharL c = '\\' :: 'u' :: hex4 c.toNat := by
      simp [jsonEscapeCharL, h1, h2, h3, h4, h5, h6, h7, h8]
    rw [e1]
    intro hmem
    simp only [hex4, List.mem_cons, List.not_mem_nil, or_false] at hmem
    rcases hmem with h | h | h | h | h | h <;>
      first
        | exact absurd h (by decide)
        | exact hhex _ (Nat.mod_lt _ (by norm_num)) h.symm
  · have e1 : jsonEscapeCharL c = [c] := by
      simp [jsonEscapeCharL, h1, h2, h3, h4, h5, h6, h7, h8]
    rw [e1]
    intro hmem
    exact h3 (List.mem_singleton.mp hmem).symm

/-- Escaping a string never emits a newline. -/
theorem newline_not_mem_jsonEscapeL (s : List Char) : '\n' ∉ jsonEscapeL s := by
  induction s with
  | nil => intro h; cases h
  | cons c cs ih =>
    intro h
    rcases List.mem_append.mp h with h | h
    · exact newline_not_mem_jsonEscapeCharL c h
    · exact ih h

/-- A serialized string literal never contains a newline. -/
theorem newline_not_mem_jsonQuoteL (s : List Char) : '\n' ∉ jsonQuoteL s := by
  intro h
  rcases List.mem_cons.mp h with h | h
  · exact absurd h (by decide)
  rcases List.mem_append.mp h with h | h
  · exact newline_not_mem_jsonEscapeL s h
  · exact absurd (List.mem_singleton.mp h) (by decide)

/-- A serialized entry list never contains a newline. -/
theorem newline_not_mem_dumpsEntriesL (entries : List (String × String)) :
    '\n' ∉ dumpsEntriesL entries := by
  induction entries with
  | nil => intro h; cases h
  | cons kv tl ih =>
    obtain ⟨k, v⟩ := kv
    cases tl with
    | nil =>
      intro h
      have hd : dumpsEntriesL [(k, v)] = jsonQuoteL k.data ++ ':' :: jsonQuoteL v.data := by
        rw [dumpsEntriesL]
      rw [hd] at h
      rcases List.mem_append.mp h with h | h
      · exact newline_not_mem_jsonQuoteL _ h
      rcases List.mem_cons.mp h with h | h
      · exact absurd h (by decide)
      · exact newline_not_mem_jsonQuoteL _ h
    | cons kv2 tl2 =>
      intro h
      have hd : dumpsEntriesL ((k, v) :: kv2 :: tl2)
          = jsonQuoteL k.data ++ ':' :: jsonQuoteL v.data ++ ',' :: dumpsEntriesL (kv2 :: tl2) := by
        rw [dumpsEntriesL]
      rw [hd] at h
      rcases List.mem_append.mp h with h | h
      · rcases List.mem_append.mp h with h | h
        · exact newline_not_mem_jsonQuoteL _ h
        rcases List.mem_cons.mp h with h | h
        · exact absurd h (by decide)
        · exact newline_not_mem_jsonQuoteL _ h
      · rcases List.mem_cons.mp h with h | h
        · exact absurd h (by decide)
        · exact ih h

/-- A formatted line is a single line: it contains no newline character. -/
theorem newline_not_mem_format (t : Nat) (tid : Option String) (r : LogRecord) :
    '\n' ∉ (format t tid r).data := by
  show '\n' ∉ '\x7b' :: (dumpsEntriesL (formatEntries t tid r) ++ ['\x7d'])
  intro h
  rcases List.mem_cons.mp h with h | h
  · exact absurd h (by decide)
  rcases List.mem_append.mp h with h | h
  · exact newline_not_mem_dumpsEntriesL _ h
  · exact absurd (List.mem_singleton.mp h) (by decide)

/-- Non-ASCII characters pass through the escaper literally. -/
theorem jsonEscapeCharL_nonascii (c : Char) (h : 128 ≤ c.toNat) : jsonEscapeCharL c = [c] := by
  have h1 : ¬ c = '"' := fun e => absurd h (by subst e; decide)
  have h2 : ¬ c = '\\' := fun e => absurd h (by subst e; decide)
  have h3 : ¬ c = '\n' := fun e => absurd h (by subst e; decide)
  have h4 : ¬ c = '\r' := fun e => absurd h (by subst e; decide)
  have h5 : ¬ c = '\t' := fun e => absurd h (by subst e; decide)
  have h6 : ¬ c = '\x08' := fun e => absurd h (by subst e; decide)
  have h7 : ¬ c = '\x0c' := fun e => absurd h (by subst e; decide)
  have h8 : ¬ c.toNat < 32 := by omega
  simp [jsonEscapeCharL, h1, h2, h3, h4, h5, h6, h7, h8]

/-- A handler accepts a level iff the level reaches its minimum and matches
its exact filter, when it has one. -/
theorem handlerAccepts_iff (h : Handler) (lvl : Nat) :
    handlerAccepts h lvl = true
      ↔ (h.level ≤ lvl ∧ (h.levelFilter = none ∨ h.levelFilter = some lvl)) := by
  obtain ⟨d, hl, f⟩ := h
  cases f with
  | none => simp [handlerAccepts]
  | some fl =>
    simp only [handlerAccepts, LevelFilter_filter, Bool.and_eq_true, decide_eq_true_eq,
      beq_iff_eq, Option.some.injEq, reduceCtorEq, false_or]
    constructor
    · rintro ⟨h1, h2⟩; exact ⟨h1, h2.symm⟩
    · rintro ⟨h1, h2⟩; exact ⟨h1, h2.symm⟩

/-- Membership in the delivered-handler set, for handlers whose minimum is
at least the logger threshold (as `_create_logger` always arranges). -/
theorem mem_deliveredHandlers_iff (lg : Logger) (lvl : Nat) (h : Handler)
    (hmem : h ∈ lg.handlers) (hge : lg.level ≤ h.level) :
    h ∈ deliveredHandlers lg lvl
      ↔ (h.level ≤ lvl ∧ (h.levelFilter = none ∨ h.levelFilter = some lvl)) := by
  rw [deliveredHandlers]
  by_cases hth : lg.level ≤ lvl
  · rw [if_pos hth, List.mem_filter]
    rw [handlerAccepts_iff]
    simp [hmem]
  · rw [if_neg hth]
    simp only [List.not_mem_nil, false_iff]
    rintro ⟨hle, _⟩
    exact hth (le_trans hge hle)

/-- Every handler `_create_logger` installs has a minimum level at least the
logger threshold. -/
theorem create_logger_level_le (config : Config) :
    ∀ h ∈ (_create_logger config).handlers, (_create_logger config).level ≤ h.level := by
  intro h hmem
  obtain ⟨p, a, d, m⟩ := config
  by_cases hp : p = "" <;> cases d <;> cases m <;>
    simp_all [_create_logger, _add_level_file_handler, DEBUG, INFO, WARNING,
      ERROR_LEVEL, CRITICAL] <;>
    first
      | (rcases hmem with rfl | rfl <;> norm_num)
      | (rcases hmem with rfl | rfl | rfl | rfl | rfl <;> norm_num)
      | (rcases hmem with rfl | rfl | rfl | rfl | rfl | rfl <;> norm_num)

/-- C1: for every configured logger and record level, a record is delivered
to a sink iff its level reaches the sink minimum and matches the sink's
exact filter when present; nothing is formatted or emitted below the logger
threshold; the console sink (and, in single-file mode, every sink) has no
exact filter, while in multi-file mode every file sink carries one equal to
its own level. -/
theorem C1_sink_routing (config : Config) (lvl : Nat) :
    (∀ h ∈ (_create_logger config).handlers,
      (h ∈ deliveredHandlers (_create_logger config) lvl
        ↔ (h.level ≤ lvl ∧ (h.levelFilter = none ∨ h.levelFilter = some lvl))))
    ∧ (lvl < (_create_logger config).level → deliveredHandlers (_create_logger config) lvl = [])
    ∧ (_create_logger config).handlers.head?
        = some ⟨"stdout", if config.debug then DEBUG else INFO, none⟩
    ∧ (config.multi_file = false → ∀ h ∈ (_create_logger config).handlers, h.levelFilter = none)
    ∧ (config.multi_file = true →
        ∀ h ∈ (_create_logger config).handlers.tail, h.levelFilter = some h.level) := by
  refine ⟨?_, ?_, ?_, ?_, ?_⟩
  · intro h hmem
    exact mem_deliveredHandlers_iff _ _ _ hmem (create_logger_level_le _ h hmem)
  · intro hlt
    rw [deliveredHandlers, if_neg (not_le.mpr hlt)]
  · obtain ⟨p, a, d, m⟩ := config
    cases d <;> rfl
  · intro hm h hmem
    obtain ⟨p, a, d, m⟩ := config
    subst hm
    by_cases hp : p = "" <;> cases d <;>
      simp_all [_create_logger, _add_level_file_handler] <;>
      rcases hmem with rfl | rfl <;> rfl
  · intro hm h hmem
    obtain ⟨p, a, d, m⟩ := config
    subst hm
    by_cases hp : p = "" <;> cases d <;>
      simp_all [_create_logger, _add_level_file_handler, DEBUG, INFO, WARNING,
        ERROR_LEVEL, CRITICAL] <;>
      first
        | (rcases hmem with rfl | rfl | rfl | rfl <;> rfl)
        | (rcases hmem with rfl | rfl | rfl | rfl | rfl <;> rfl)

/-- C1 witness: in multi-file non-debug mode, an ERROR record reaches the
error file sink; a DEBUG record is delivered nowhere; every file sink
carries its own level as exact filter. -/
theorem C1_sink_routing_witness :
    (⟨"/logs/app_error.log", 40, some 40⟩ : Handler)
      ∈ deliveredHandlers (_create_logger ⟨"/logs", "app", false, true⟩) 40
    ∧ deliveredHandlers (_create_logger ⟨"/logs", "app", false, true⟩) 10 = []
    ∧ (∀ h ∈ (_create_logger ⟨"/logs", "app", false, true⟩).handlers.tail,
        h.levelFilter = some h.level) := by
  have hh : (_create_logger ⟨"/logs", "app", false, true⟩).handlers
      = [⟨"stdout", 20, none⟩,
         ⟨"/logs/app_info.log", 20, some 20⟩,
         ⟨"/logs/app_warn.log", 30, some 30⟩,
         ⟨"/logs/app_error.log", 40, some 40⟩,
         ⟨"/logs/app_fatal.log", 50, some 50⟩] := rfl
  have hl : (_create_logger ⟨"/logs", "app", false, true⟩).level = 20 := rfl
  refine ⟨?_, ?_, ?_⟩
  · refine ((C1_sink_routing ⟨"/logs", "app", false, true⟩ 40).1 _ ?_).mpr (by simp)
    rw [hh]; simp
  · exact (C1_sink_routing ⟨"/logs", "app", false, true⟩ 10).2.1 (by rw [hl]; norm_num)
  · exact (C1_sink_routing ⟨"/logs", "app", false, true⟩ 40).2.2.2.2 rfl

/-- C2: every formatted line is a single-line JSON object that decodes back
to exactly its entries; the keys are exactly level, event_time, msg, plus
trace_id iff a trace id is set, plus stacktrace iff the level is at least
WARN and an exception is attached; event_time is the nonempty all-digit
decimal string of the unix seconds; non-ASCII characters are written
literally. -/
theorem C2_json_line (t : Nat) (tid : Option String) (r : LogRecord) :
    parseStrObj (format t tid r) = some (formatEntries t tid r)
    ∧ (formatEntries t tid r).map Prod.fst
        = ["level", "event_time", "msg"]
          ++ (if tid.isSome then ["trace_id"] else [])
          ++ (if WARNING ≤ r.levelno ∧ r.excInfo.isSome then ["stacktrace"] else [])
    ∧ List.lookup "event_time" (formatEntries t tid r) = some (Nat.repr t)
    ∧ (Nat.repr t).data ≠ []
    ∧ (∀ c ∈ (Nat.repr t).data, c.isDigit = true)
    ∧ List.lookup "msg" (formatEntries t tid r) = some r.msg
    ∧ '\n' ∉ (format t tid r).data
    ∧ (∀ c : Char, 128 ≤ c.toNat → jsonEscapeCharL c = [c]) := by
  exact ⟨parseStrObj_dumps _, formatEntries_keys t tid r, formatEntries_event_time t tid r,
    (repr_digits t).1, (repr_digits t).2, formatEntries_msg t tid r,
    newline_not_mem_format t tid r, fun c hc => jsonEscapeCharL_nonascii c hc⟩

/-- C2 witness at a concrete record with trace id, exception and a
non-ASCII message character. -/
theorem C2_json_line_witness :
    parseStrObj (format 1700000000 (some "abc") ⟨30, "héllo", some "tb"⟩)
      = some (formatEntries 1700000000 (some "abc") ⟨30, "héllo", some "tb"⟩)
    ∧ Char.isDigit '1' = true
    ∧ jsonEscapeCharL 'é' = ['é'] := by
  obtain ⟨p1, _, _, _, p5, _, _, p8⟩ :=
    C2_json_line 1700000000 (some "abc") ⟨30, "héllo", some "tb"⟩
  exact ⟨p1, p5 '1' (by decide), p8 'é' (by decide)⟩

/-- C3: evaluation of the formatter at the failing inputs. The claim says
`warn()` emits level `"warn"` and `fatal()` emits `"fatal"`; the code
lowercases Python's level names and therefore emits `"warning"` and
`"critical"` (the other three severities do match). -/
theorem C3_levelname_divergence :
    List.lookup "level" (formatEntries 0 none ⟨WARNING, "x", none⟩) = some "warning"
    ∧ List.lookup "level" (formatEntries 0 none ⟨CRITICAL, "x", none⟩) = some "critical"
    ∧ "warning" ≠ "warn"
    ∧ "critical" ≠ "fatal"
    ∧ (warn 0 [PyVal.str "x"] ⟨none, none⟩).2
        = [Event.write "stdout" (format 0 none ⟨WARNING, "x", none⟩)]
    ∧ List.lookup "level" (formatEntries 0 none ⟨DEBUG, "x", none⟩) = some "debug"
    ∧ List.lookup "level" (formatEntries 0 none ⟨INFO, "x", none⟩) = some "info"
    ∧ List.lookup "level" (formatEntries 0 none ⟨ERROR_LEVEL, "x", none⟩) = some "error" := by
  refine ⟨rfl, rfl, by decide, by decide, ?_, rfl, rfl, rfl⟩
  decide

/-- C4: scoping round trip — after `with_trace_id(x)` and `reset_trace_id`
on the returned token, `from_context` reports the prior value again, never
`x` (unless it already was `x`); and each `ctx_*` operation performs exactly
the one underlying log call with the given trace id installed, and restores
the prior ambient value on every exit path, including failing ones. -/
theorem C4_trace_scoping (st : LogState) (x : String) (t : Nat) (tid : String)
    (args : List PyVal) (msg : String) :
    from_context (reset_trace_id (with_trace_id x st).1 (with_trace_id x st).2) = from_context st
    ∧ (st.traceVar ≠ some x →
        (from_context (reset_trace_id (with_trace_id x st).1 (with_trace_id x st).2)).1 ≠ some x)
    ∧ (ctx_debug t tid args st).1.traceVar = st.traceVar
    ∧ (ctx_debug t tid args st).2 = (debug t args ⟨some tid, st.logger⟩).2
    ∧ (ctx_debug t tid args st).1.logger = (debug t args ⟨some tid, st.logger⟩).1.logger
    ∧ (ctx_info t tid args st).1.traceVar = st.traceVar
    ∧ (ctx_info t tid args st).2 = (info t args ⟨some tid, st.logger⟩).2
    ∧ (ctx_info t tid args st).1.logger = (info t args ⟨some tid, st.logger⟩).1.logger
    ∧ (ctx_warn t tid args st).1.traceVar = st.traceVar
    ∧ (ctx_warn t tid args st).2 = (warn t args ⟨some tid, st.logger⟩).2
    ∧ (ctx_warn t tid args st).1.logger = (warn t args ⟨some tid, st.logger⟩).1.logger
    ∧ (ctx_error t tid args st).1.traceVar = st.traceVar
    ∧ (ctx_error t tid args st).2 = (error t args ⟨some tid, st.logger⟩).2
    ∧ (ctx_error t tid args st).1.logger = (error t args ⟨some tid, st.logger⟩).1.logger
    ∧ (ctx_debugf t tid msg args st).2.1.traceVar = st.traceVar
    ∧ (ctx_debugf t tid msg args st).1 = (debugf t msg args ⟨some tid, st.logger⟩).1
    ∧ (ctx_debugf t tid msg args st).2.2 = (debugf t msg args ⟨some tid, st.logger⟩).2.2
    ∧ (ctx_infof t tid msg args st).2.1.traceVar = st.traceVar
    ∧ (ctx_infof t tid msg args st).1 = (infof t msg args ⟨some tid, st.logger⟩).1
    ∧ (ctx_infof t tid msg args st).2.2 = (infof t msg args ⟨some tid, st.logger⟩).2.2
    ∧ (ctx_warnf t tid msg args st).2.1.traceVar = st.traceVar
    ∧ (ctx_warnf t tid msg args st).1 = (warnf t msg args ⟨some tid, st.logger⟩).1
    ∧ (ctx_warnf t tid msg args st).2.2 = (warnf t msg args ⟨some tid, st.logger⟩).2.2
    ∧ (ctx_errorf t tid msg args st).2.1.traceVar = st.traceVar
    ∧ (ctx_errorf t tid msg args st).1 = (errorf t msg args ⟨some tid, st.logger⟩).1
    ∧ (ctx_errorf t tid msg args st).2.2 = (errorf t msg args ⟨some tid, st.logger⟩).2.2 := by
  refine ⟨rfl, ?_, rfl, rfl, rfl, rfl, rfl, rfl, rfl, rfl, rfl, rfl, rfl, rfl,
    rfl, rfl, rfl, rfl, rfl, rfl, rfl, rfl, rfl, rfl, rfl, rfl⟩
  intro h
  exact h

/-- C4 witness: a set prior value is restored and differs from the scoped
value. -/
theorem C4_trace_scoping_witness :
    from_context (reset_trace_id (with_trace_id "x" ⟨some "v", none⟩).1
        (with_trace_id "x" ⟨some "v", none⟩).2) = from_context ⟨some "v", none⟩
    ∧ (from_context (reset_trace_id (with_trace_id "x" ⟨some "v", none⟩).1
        (with_trace_id "x" ⟨some "v", none⟩).2)).1 ≠ some "x" := by
  have h := C4_trace_scoping ⟨some "v", none⟩ "x" 0 "t" [] "m"
  exact ⟨h.1, h.2.1 (by decide)⟩

/-- C5 counterexample: `infof("count=%d", "x")` raises a TypeError that the
caller observes, so logging calls are not unconditionally failure-free. -/
theorem C5_counterexample :
    (infof 0 "count=%d" [PyVal.str "x"] ⟨none, none⟩).1
      = Except.error (PyErr.typeError "%d format: a real number is required, not str") := rfl

/-- C5 amended: plain variants never raise; a formatted variant (or its
`ctx_*` version) raises exactly the error of `%`-interpolating its template
with its nonempty argument tuple, and raises nothing when interpolation
succeeds or no arguments are given. -/
theorem C5_error_containment (t : Nat) (msg : String) (args : List PyVal)
    (st : LogState) (tid : String) :
    ((renderFormatted msg args).isOk = true →
      (debugf t msg args st).1 = Except.ok ()
      ∧ (infof t msg args st).1 = Except.ok ()
      ∧ (warnf t msg args st).1 = Except.ok ()
      ∧ (errorf t msg args st).1 = Except.ok ()
      ∧ (fatalf t msg args st).1 = Except.ok ()
      ∧ (ctx_debugf t tid msg args st).1 = Except.ok ()
      ∧ (ctx_infof t tid msg args st).1 = Except.ok ()
      ∧ (ctx_warnf t tid msg args st).1 = Except.ok ()
      ∧ (ctx_errorf t tid msg args st).1 = Except.ok ())
    ∧ (∀ e, renderFormatted msg args = Except.error e →
      (debugf t msg args st).1 = Except.error e
      ∧ (infof t msg args st).1 = Except.error e
      ∧ (warnf t msg args st).1 = Except.error e
      ∧ (errorf t msg args st).1 = Except.error e
      ∧ (fatalf t msg args st).1 = Except.error e
      ∧ (ctx_debugf t tid msg args st).1 = Except.error e
      ∧ (ctx_infof t tid msg args st).1 = Except.error e
      ∧ (ctx_warnf t tid msg args st).1 = Except.error e
      ∧ (ctx_errorf t tid msg args st).1 = Except.error e) := by
  cases hr : renderFormatted msg args with
  | ok m =>
    constructor
    · intro _
      refine ⟨?_, ?_, ?_, ?_, ?_, ?_, ?_, ?_, ?_⟩ <;>
        simp [debugf, infof, warnf, errorf, fatalf, ctx_debugf, ctx_infof, ctx_warnf,
          ctx_errorf, logFmt, hr]
    · intro e he
      cases he
  | error e0 =>
    constructor
    · intro h
      simp [Except.isOk, Except.toBool] at h
    · intro e he
      cases he
      refine ⟨?_, ?_, ?_, ?_, ?_, ?_, ?_, ?_, ?_⟩ <;>
        simp [debugf, infof, warnf, errorf, fatalf, ctx_debugf, ctx_infof, ctx_warnf,
          ctx_errorf, logFmt, hr]

/-- C5 witness: a succeeding interpolation raises nothing, and a failing
interpolation surfaces exactly its TypeError. -/
theorem C5_error_containment_witness :
    (infof 0 "a %s" [PyVal.str "b"] ⟨none, none⟩).1 = Except.ok ()
    ∧ (errorf 0 "%d" [PyVal.str "x"] ⟨none, none⟩).1
      = Except.error (PyErr.typeError "%d format: a real number is required, not str") := by
  refine ⟨((C5_error_containment 0 "a %s" [PyVal.str "b"] ⟨none, none⟩ "t").1 (by decide)).2.1, ?_⟩
  exact ((C5_error_containment 0 "%d" [PyVal.str "x"] ⟨none, none⟩ "t").2
    (PyErr.typeError "%d format: a real number is required, not str") rfl).2.2.2.1

/-- C6 counterexample: with the logger at threshold INFO, the claim says
`debugf` is a complete no-op; but the code interpolates `msg % args` at the
call site before any threshold check, so `debugf("count=%d", "x")` still
raises a TypeError. -/
theorem C6_counterexample :
    DEBUG < (_create_logger ⟨"", "", false, false⟩).level
    ∧ (debugf 0 "count=%d" [PyVal.str "x"]
          ⟨none, some (_create_logger ⟨"", "", false, false⟩)⟩).1
      = Except.error (PyErr.typeError "%d format: a real number is required, not str") :=
  ⟨by decide, rfl⟩

/-- C6 amended: a below-threshold call produces no output on any sink, but
argument stringification and `%`-interpolation still happen eagerly at the
call site — a failing template raises even below threshold. -/
theorem C6_below_threshold (lvl t : Nat) (msg : String) (args : List PyVal)
    (st : LogState) (hlt : lvl < ((_get_logger st).1).level) :
    (logPlain lvl t args st).2 = []
    ∧ ((renderFormatted msg args).isOk = true → (logFmt lvl t msg args st).2.2 = [])
    ∧ (∀ e, renderFormatted msg args = Except.error e →
        (logFmt lvl t msg args st).1 = Except.error e)
    ∧ debug t args st = logPlain DEBUG t args st
    ∧ debugf t msg args st = logFmt DEBUG t msg args st := by
  have hDel : deliveredHandlers ((_get_logger st).1) lvl = [] := by
    rw [deliveredHandlers, if_neg (not_le.mpr hlt)]
  refine ⟨?_, ?_, ?_, rfl, rfl⟩
  · show logWith ((_get_logger st).1) t lvl (renderJoin args) (((_get_logger st).2).traceVar) = []
    rw [logWith, hDel]
    rfl
  · intro h
    cases hr : renderFormatted msg args with
    | ok m =>
      show (logFmt lvl t msg args st).2.2 = []
      rw [show (logFmt lvl t msg args st).2.2
          = logWith ((_get_logger st).1) t lvl m (((_get_logger st).2).traceVar) from by
        simp [logFmt, hr]]
      rw [logWith, hDel]
      rfl
    | error e =>
      rw [hr] at h
      simp [Except.isOk, Except.toBool] at h
  · intro e he
    simp [logFmt, he]

/-- C6 witness: at threshold INFO, a DEBUG-level plain call and a
succeeding DEBUG-level formatted call emit nothing. -/
theorem C6_below_threshold_witness :
    (logPlain 10 0 [PyVal.str "x"] ⟨none, some (_create_logger ⟨"", "", false, false⟩)⟩).2 = []
    ∧ (logFmt 10 0 "m" [] ⟨none, some (_create_logger ⟨"", "", false, false⟩)⟩).2.2 = [] := by
  have h := C6_below_threshold 10 0 "m" []
    ⟨none, some (_create_logger ⟨"", "", false, false⟩)⟩ (by decide)
  exact ⟨h.1, h.2.1 (by decide)⟩

/-- C7: formatted variants interpolate the template with the arguments when
arguments are supplied, and use the template verbatim — even with a literal
percent — when none are; the emitted record's msg field is that rendering. -/
theorem C7_formatted_msg (t : Nat) (msg : String) (args : List PyVal)
    (st : LogState) (tid : Option String) (lvl : Nat) (m : String) :
    (args ≠ [] → renderFormatted msg args = pyInterp msg args)
    ∧ renderFormatted msg [] = Except.ok msg
    ∧ pyInterp "count=%d" [PyVal.int 5] = Except.ok "count=5"
    ∧ renderFormatted "100% sure" [] = Except.ok "100% sure"
    ∧ (renderFormatted msg args = Except.ok m →
        (logFmt lvl t msg args st).2.2
          = logWith ((_get_logger st).1) t lvl m (((_get_logger st).2).traceVar))
    ∧ List.lookup "msg" (formatEntries t tid ⟨lvl, m, none⟩) = some m := by
  refine ⟨?_, rfl, rfl, rfl, ?_, rfl⟩
  · intro h
    cases args with
    | nil => exact absurd rfl h
    | cons a as => rfl
  · intro hr
    simp [logFmt, hr]

/-- C7 witness: `infof("count=%d", 5)` renders `msg` as `"count=5"` and that
is what reaches the sinks. -/
theorem C7_formatted_msg_witness :
    renderFormatted "count=%d" [PyVal.int 5] = pyInterp "count=%d" [PyVal.int 5]
    ∧ (logFmt 20 0 "count=%d" [PyVal.int 5] ⟨none, none⟩).2.2
      = logWith ((_get_logger (⟨none, none⟩ : LogState)).1) 0 20 "count=5"
          (((_get_logger (⟨none, none⟩ : LogState)).2).traceVar) := by
  have h := C7_formatted_msg 0 "count=%d" [PyVal.int 5] ⟨none, none⟩ none 20 "count=5"
  exact ⟨h.1 (by decide), h.2.2.2.2.1 rfl⟩

/-- C8: before any explicit init, the first logging call creates the logger
from `Config(debug=True)` — console sink only, threshold DEBUG — stores it,
and later calls reuse the stored logger unchanged. -/
theorem C8_lazy_default_init (tv : Option String) (t : Nat) (args : List PyVal) :
    _get_logger ⟨tv, none⟩
      = (_create_logger ⟨"", "", true, false⟩,
         ⟨tv, some (_create_logger ⟨"", "", true, false⟩)⟩)
    ∧ (_create_logger ⟨"", "", true, false⟩).level = DEBUG
    ∧ (_create_logger ⟨"", "", true, false⟩).handlers = [⟨"stdout", DEBUG, none⟩]
    ∧ (∀ lg : Logger, _get_logger ⟨tv, some lg⟩ = (lg, ⟨tv, some lg⟩))
    ∧ (debug t args ⟨tv, none⟩).1.logger = some (_create_logger ⟨"", "", true, false⟩)
    ∧ (debug t args (debug t args ⟨tv, none⟩).1).1 = (debug t args ⟨tv, none⟩).1 :=
  ⟨rfl, rfl, rfl, fun _ => rfl, rfl, rfl⟩

/-- In any reachable state the effective logger comes from `_create_logger`. -/
theorem get_logger_reachable (st : LogState) (hst : ReachableLogger st) :
    ∃ config, (_get_logger st).1 = _create_logger config := by
  rcases hst with h | ⟨config, h⟩
  · exact ⟨⟨"", "", true, false⟩, by rw [_get_logger.eq_def, h]⟩
  · exact ⟨config, by rw [_get_logger.eq_def, h]⟩

/-- A CRITICAL record is always delivered to the console sink of any
configured logger, and log calls only produce writes. -/
theorem console_delivered (st : LogState) (hst : ReachableLogger st) (t : Nat)
    (m : String) (tid : Option String) :
    (∃ line, Event.write "stdout" line ∈ logWith ((_get_logger st).1) t CRITICAL m tid)
    ∧ (∀ lg lvl m2 tid2, ∀ ev ∈ logWith lg t lvl m2 tid2, ∃ d l, ev = Event.write d l) := by
  constructor
  · obtain ⟨config, hc⟩ := get_logger_reachable st hst
    rw [hc]
    have hlev : (_create_logger config).level ≤ CRITICAL := by
      obtain ⟨p, a, d, mf⟩ := config
      cases d <;> simp [_create_logger, DEBUG, INFO, CRITICAL]
    have hcons : (⟨"stdout", (_create_logger config).level, none⟩ : Handler)
        ∈ (_create_logger config).handlers := by
      obtain ⟨p, a, d, mf⟩ := config
      cases d <;> exact List.mem_cons_self _ _
    have hmem : (⟨"stdout", (_create_logger config).level, none⟩ : Handler)
        ∈ deliveredHandlers (_create_logger config) CRITICAL := by
      rw [deliveredHandlers, if_pos hlev, List.mem_filter]
      exact ⟨hcons, (handlerAccepts_iff _ _).mpr ⟨hlev, Or.inl rfl⟩⟩
    exact ⟨format t tid ⟨CRITICAL, m, none⟩,
      List.mem_map.mpr ⟨_, hmem, rfl⟩⟩
  · intro lg lvl m2 tid2 ev hev
    rcases List.mem_map.mp hev with ⟨h, _, rfl⟩
    exact ⟨h.dest, _, rfl⟩

/-- C9 counterexample: `fatalf("%d", "x")` raises the interpolation
TypeError before `logger.critical` is reached — nothing is emitted and
`sys.exit(1)` never runs, so `fatalf` does not emit-then-terminate on
every call as the claim states. -/
theorem C9_fatalf_counterexample :
    (fatalf 0 "%d" [PyVal.str "x"] ⟨none, none⟩).1
      = Except.error (PyErr.typeError "%d format: a real number is required, not str")
    ∧ (fatalf 0 "%d" [PyVal.str "x"] ⟨none, none⟩).2.2 = []
    ∧ Event.exit 1 ∉ (fatalf 0 "%d" [PyVal.str "x"] ⟨none, none⟩).2.2 := by
  refine ⟨rfl, rfl, ?_⟩
  rw [show (fatalf 0 "%d" [PyVal.str "x"] (⟨none, none⟩ : LogState)).2.2 = [] from rfl]
  exact List.not_mem_nil _

/-- C9 amended: `fatal` always emits its record — which always reaches the
console sink — and then terminates with exit status 1. `fatalf` does the
same whenever its message renders (in particular whenever no extra
arguments are supplied); when interpolation fails it raises before the log
call, emits nothing, and never reaches `sys.exit`. Whenever a `fatalf` call
does terminate, the exit has status 1 and strictly follows all emissions. -/
theorem C9_fatal_order_amended (t : Nat) (args : List PyVal) (msg : String)
    (margs : List PyVal) (st : LogState) (hst : ReachableLogger st) :
    (∃ pre, (fatal t args st).2 = pre ++ [Event.exit 1]
      ∧ (∃ line, Event.write "stdout" line ∈ pre)
      ∧ (∀ ev ∈ pre, ∃ d l, ev = Event.write d l))
    ∧ (∀ m, renderFormatted msg margs = Except.ok m →
        ∃ pre, (fatalf t msg margs st).2.2 = pre ++ [Event.exit 1]
          ∧ (∃ line, Event.write "stdout" line ∈ pre)
          ∧ (∀ ev ∈ pre, ∃ d l, ev = Event.write d l))
    ∧ (∀ e, renderFormatted msg margs = Except.error e →
        (fatalf t msg margs st).1 = Except.error e
        ∧ (fatalf t msg margs st).2.2 = [])
    ∧ (Event.exit 1 ∈ (fatalf t msg margs st).2.2 →
        ∃ pre, (fatalf t msg margs st).2.2 = pre ++ [Event.exit 1]
          ∧ (∀ ev ∈ pre, ∃ d l, ev = Event.write d l)) := by
  refine ⟨?_, ?_, ?_, ?_⟩
  · refine ⟨logWith ((_get_logger st).1) t CRITICAL (renderJoin args)
      (((_get_logger st).2).traceVar), rfl, ?_, ?_⟩
    · exact (console_delivered st hst t (renderJoin args) (((_get_logger st).2).traceVar)).1
    · exact (console_delivered st hst t "" none).2 _ _ _ _
  · intro m hr
    have hlf : logFmt CRITICAL t msg margs st
        = (Except.ok (), (_get_logger st).2,
           logWith ((_get_logger st).1) t CRITICAL m (((_get_logger st).2).traceVar)) := by
      simp [logFmt, hr]
    refine ⟨logWith ((_get_logger st).1) t CRITICAL m (((_get_logger st).2).traceVar),
      ?_, ?_, ?_⟩
    · rw [fatalf.eq_def, hlf]
    · exact (console_delivered st hst t m (((_get_logger st).2).traceVar)).1
    · exact (console_delivered st hst t "" none).2 _ _ _ _
  · intro e he
    have hlf : logFmt CRITICAL t msg margs st
        = (Except.error e, (_get_logger st).2, []) := by
      simp [logFmt, he]
    constructor
    · rw [fatalf.eq_def, hlf]
    · rw [fatalf.eq_def, hlf]
  · cases hr : renderFormatted msg margs with
    | error e =>
      intro hmem
      have hlf : logFmt CRITICAL t msg margs st
          = (Except.error e, (_get_logger st).2, []) := by
        simp [logFmt, hr]
      rw [fatalf.eq_def, hlf] at hmem
      dsimp only at hmem
      cases hmem
    | ok m =>
      intro _
      have hlf : logFmt CRITICAL t msg margs st
          = (Except.ok (), (_get_logger st).2,
             logWith ((_get_logger st).1) t CRITICAL m (((_get_logger st).2).traceVar)) := by
        simp [logFmt, hr]
      refine ⟨logWith ((_get_logger st).1) t CRITICAL m (((_get_logger st).2).traceVar),
        ?_, ?_⟩
      · rw [fatalf.eq_def, hlf]
      · exact (console_delivered st hst t "" none).2 _ _ _ _

/-- C9 amended witness at the default (implicitly initialized) logger:
`fatal` and a rendering `fatalf` emit then exit with status 1; a failing
`fatalf` emits nothing. -/
theorem C9_fatal_order_amended_witness :
    (∃ pre, (fatal 0 [PyVal.str "boom"] ⟨none, none⟩).2 = pre ++ [Event.exit 1]
      ∧ (∃ line, Event.write "stdout" line ∈ pre)
      ∧ (∀ ev ∈ pre, ∃ d l, ev = Event.write d l))
    ∧ (∃ pre, (fatalf 0 "%s" [PyVal.str "b"] ⟨none, none⟩).2.2 = pre ++ [Event.exit 1]
      ∧ (∃ line, Event.write "stdout" line ∈ pre)
      ∧ (∀ ev ∈ pre, ∃ d l, ev = Event.write d l))
    ∧ (fatalf 0 "%d" [PyVal.str "q"] ⟨none, none⟩).2.2 = [] := by
  have h := C9_fatal_order_amended 0 [PyVal.str "boom"] "%s" [PyVal.str "b"]
    ⟨none, none⟩ (Or.inl rfl)
  have h2 := C9_fatal_order_amended 0 [] "%d" [PyVal.str "q"] ⟨none, none⟩ (Or.inl rfl)
  exact ⟨h.1, h.2.1 "b" rfl,
    (h2.2.2.1 (PyErr.typeError "%d format: a real number is required, not str") rfl).2⟩

/-- Records built without `exc_info` never produce a `stacktrace` key. -/
theorem stacktrace_not_key (t : Nat) (tid : Option String) (lvl : Nat) (m : String) :
    "stacktrace" ∉ (formatEntries t tid ⟨lvl, m, none⟩).map Prod.fst := by
  rw [formatEntries_keys]
  cases tid <;> by_cases h : WARNING ≤ lvl <;> simp [h]

/-- Any line emitted through `logWith` lacks the `stacktrace` key. -/
theorem logWith_noStacktrace (lg : Logger) (t lvl : Nat) (m : String) (tid : Option String) :
    ∀ ev ∈ logWith lg t lvl m tid, eventNoStacktrace ev := by
  intro ev hev
  rcases List.mem_map.mp hev with ⟨h, _, rfl⟩
  exact ⟨formatEntries t tid ⟨lvl, m, none⟩, rfl, stacktrace_not_key t tid lvl m⟩

/-- Same for the shared plain-variant body. -/
theorem logPlain_noStacktrace (lvl t : Nat) (args : List PyVal) (st : LogState) :
    ∀ ev ∈ (logPlain lvl t args st).2, eventNoStacktrace ev :=
  fun ev hev => logWith_noStacktrace _ _ _ _ _ ev hev

/-- Same for the shared formatted-variant body. -/
theorem logFmt_noStacktrace (lvl t : Nat) (msg : String) (args : List PyVal) (st : LogState) :
    ∀ ev ∈ (logFmt lvl t msg args st).2.2, eventNoStacktrace ev := by
  cases hr : renderFormatted msg args with
  | error e =>
    intro ev hev
    rw [show (logFmt lvl t msg args st).2.2 = [] from by simp [logFmt, hr]] at hev
    cases hev
  | ok m =>
    intro ev hev
    rw [show (logFmt lvl t msg args st).2.2
        = logWith ((_get_logger st).1) t lvl m (((_get_logger st).2).traceVar) from by
      simp [logFmt, hr]] at hev
    exact logWith_noStacktrace _ _ _ _ _ ev hev

/-- Same for `fatalf`, whose trace may end in an exit event. -/
theorem fatalf_noStacktrace (t : Nat) (msg : String) (args : List PyVal) (st : LogState) :
    ∀ ev ∈ (fatalf t msg args st).2.2, eventNoStacktrace ev := by
  have hbase := logFmt_noStacktrace CRITICAL t msg args st
  intro ev hev
  rw [fatalf.eq_def] at hev
  rcases hlf : logFmt CRITICAL t msg args st with ⟨r, st1, evs⟩
  rw [hlf] at hev hbase
  cases r with
  | ok u =>
    dsimp only at hev hbase
    rcases List.mem_append.mp hev with h | h
    · exact hbase ev h
    · rcases List.mem_singleton.mp h with rfl
      trivial
  | error e =>
    dsimp only at hev hbase
    exact hbase ev hev

/-- C10: no public logging operation ever attaches an exception, so no
emitted line carries a `stacktrace` key: the formatter's stacktrace branch
is unreachable through the public interface. -/
theorem C10_no_stacktrace (lg : Logger) (t lvl : Nat) (m : String) (tid : Option String)
    (traceId msg : String) (args : List PyVal) (st : LogState) :
    (∀ ev ∈ logWith lg t lvl m tid, eventNoStacktrace ev)
    ∧ "stacktrace" ∉ (formatEntries t tid ⟨lvl, m, none⟩).map Prod.fst
    ∧ (∀ ev ∈ (debug t args st).2, eventNoStacktrace ev)
    ∧ (∀ ev ∈ (info t args st).2, eventNoStacktrace ev)
    ∧ (∀ ev ∈ (warn t args st).2, eventNoStacktrace ev)
    ∧ (∀ ev ∈ (error t args st).2, eventNoStacktrace ev)
    ∧ (∀ ev ∈ (fatal t args st).2, eventNoStacktrace ev)
    ∧ (∀ ev ∈ (debugf t msg args st).2.2, eventNoStacktrace ev)
    ∧ (∀ ev ∈ (infof t msg args st).2.2, eventNoStacktrace ev)
    ∧ (∀ ev ∈ (warnf t msg args st).2.2, eventNoStacktrace ev)
    ∧ (∀ ev ∈ (errorf t msg args st).2.2, eventNoStacktrace ev)
    ∧ (∀ ev ∈ (fatalf t msg args st).2.2, eventNoStacktrace ev)
    ∧ (∀ ev ∈ (ctx_debug t traceId args st).2, eventNoStacktrace ev)
    ∧ (∀ ev ∈ (ctx_info t traceId args st).2, eventNoStacktrace ev)
    ∧ (∀ ev ∈ (ctx_warn t traceId args st).2, eventNoStacktrace ev)
    ∧ (∀ ev ∈ (ctx_error t traceId args st).2, eventNoStacktrace ev)
    ∧ (∀ ev ∈ (ctx_debugf t traceId msg args st).2.2, eventNoStacktrace ev)
    ∧ (∀ ev ∈ (ctx_infof t traceId msg args st).2.2, eventNoStacktrace ev)
    ∧ (∀ ev ∈ (ctx_warnf t traceId msg args st).2.2, eventNoStacktrace ev)
    ∧ (∀ ev ∈ (ctx_errorf t traceId msg args st).2.2, eventNoStacktrace ev) := by
  refine ⟨logWith_noStacktrace lg t lvl m tid, stacktrace_not_key t tid lvl m,
    logPlain_noStacktrace DEBUG t args st,
    logPlain_noStacktrace INFO t args st,
    logPlain_noStacktrace WARNING t args st,
    logPlain_noStacktrace ERROR_LEVEL t args st,
    ?_,
    logFmt_noStacktrace DEBUG t msg args st,
    logFmt_noStacktrace INFO t msg args st,
    logFmt_noStacktrace WARNING t msg args st,
    logFmt_noStacktrace ERROR_LEVEL t msg args st,
    fatalf_noStacktrace t msg args st,
    fun ev hev => logPlain_noStacktrace DEBUG t args ⟨some traceId, st.logger⟩ ev hev,
    fun ev hev => logPlain_noStacktrace INFO t args ⟨some traceId, st.logger⟩ ev hev,
    fun ev hev => logPlain_noStacktrace WARNING t args ⟨some traceId, st.logger⟩ ev hev,
    fun ev hev => logPlain_noStacktrace ERROR_LEVEL t args ⟨some traceId, st.logger⟩ ev hev,
    fun ev hev => logFmt_noStacktrace DEBUG t msg args ⟨some traceId, st.logger⟩ ev hev,
    fun ev hev => logFmt_noStacktrace INFO t msg args ⟨some traceId, st.logger⟩ ev hev,
    fun ev hev => logFmt_noStacktrace WARNING t msg args ⟨some traceId, st.logger⟩ ev hev,
    fun ev hev => logFmt_noStacktrace ERROR_LEVEL t msg args ⟨some traceId, st.logger⟩ ev hev⟩
  intro ev hev
  rcases List.mem_append.mp hev with h | h
  · exact logPlain_noStacktrace CRITICAL t args st ev h
  · rcases List.mem_singleton.mp h with rfl
    trivial

/-- C10 witness: a concrete emitted console line has no stacktrace key. -/
theorem C10_no_stacktrace_witness :
    eventNoStacktrace (Event.write "stdout" (format 0 none ⟨20, "hi", none⟩)) := by
  have h := C10_no_stacktrace ⟨10, [⟨"stdout", 10, none⟩]⟩ 0 20 "hi" none "tr" "m"
    [PyVal.str "hi"] ⟨none, none⟩
  refine h.2.2.2.1 (Event.write "stdout" (format 0 none ⟨20, "hi", none⟩)) ?_
  rw [show (info 0 [PyVal.str "hi"] (⟨none, none⟩ : LogState)).2
      = [Event.write "stdout" (format 0 none ⟨20, "hi", none⟩)] from rfl]
  exact List.mem_singleton.mpr rfl

end Tuba


